import Mathlib

/-!
Shallow embedding of the WuKongIM plugin supervisor
(`internal/plugin/server.go`) and proofs about its specified behaviour.

The supervisor launches executable plugin binaries found in a plugin
directory, watches the directory for filesystem events, and keeps an
in-memory registry of handshaken plugin instances.  The file
`server.go` contains the server construction (`NewServer`,
`getUnixSocket`), the capability query (`Plugins`), the startup scan
(`startPlugins`), the watch loop (`watchPlugins`), the launcher
(`startPluginApp`), the restart path (`restartPlugin`) and the
graceful-stop path (`stopPluginApp`).

The plugin registry type (`pluginManager`) and the plugin instance
type (`types.Plugin`) are not part of the given source; they are
modelled from the specification's data model (a table of instances
carrying an id, a source filename, a status and a capability set,
with `all` / `getByName` accessors and a `hasMethod` membership test).
Everything else is translated directly from `server.go`.

Side effects are reified: launch attempts, stop requests and watcher
error logging are recorded as `Action` values, so control-flow claims
become equations about the emitted action trace.  Outcomes of the
environment (spawn failures, per-plugin stop results, `os.Stat`
results, setup failures) are supplied as explicit parameters.
-/


namespace WuKongIM.Supervisor

/-- Plugin instance status.  Modelled from the spec: the source refers
to `types.PluginStatusNormal`; the spec's data model lists the statuses
`Connecting → Normal → Stopped` with a sink `Error`. -/
inductive PluginStatus where
  | connecting
  | normal
  | stopped
  | error
deriving DecidableEq, Repr

/-- A plugin instance.  Modelled from the spec: `types.Plugin` is not in
the given source.  Per the spec's data model an instance has a stable
identifier `no` (assigned at handshake), the source filename `name` it
was launched from, a `status`, and the declared capability set
`methods`. -/
structure Plugin where
  no : String
  name : String
  status : PluginStatus
  methods : List String
deriving DecidableEq, Repr

/-- Modelled from the spec: `p.hasMethod(m)` tests membership of `m` in
the instance's declared capability set. -/
def Plugin.hasMethod (p : Plugin) (m : String) : Bool :=
  p.methods.contains m

/-- The plugin registry state.  Modelled from the spec: `pluginManager`
is not in the given source; it is an in-memory table of instances. -/
abbrev PluginManager := List Plugin

/-- Modelled from the spec: `pluginManager.all()` returns every tracked
instance regardless of status. -/
def PluginManager.all (pm : PluginManager) : List Plugin := pm

/-- Modelled from the spec: `pluginManager.getByName(name)` returns the
(possibly empty) set of tracked instances whose source filename is
`name`. -/
def PluginManager.getByName (pm : PluginManager) (name : String) : List Plugin :=
  pm.filter (fun p => p.name == name)

/-- `Server.Plugins(methods...)` from `server.go`: with no requested
methods it returns every instance whose status is Normal; otherwise it
returns, in registry order, each Normal instance for which the inner
loop over `methods` finds a declared method (the loop appends the
instance and `break`s at the first match, i.e. the instance is kept
iff some requested method is declared). -/
def Plugins (pm : PluginManager) (methods : List String) : List Plugin :=
  if methods.length == 0 then
    (pm.all).filter (fun p => p.status == PluginStatus.normal)
  else
    (pm.all).filter (fun p =>
      p.status == PluginStatus.normal && methods.any (fun m => p.hasMethod m))

/-- The set of all methods declared by any tracked instance (used to
state the spec's algebraic property about `listByCapability`). -/
def allKnownMethods (pm : PluginManager) : List String :=
  ((pm.map (fun p => p.methods)).flatten).dedup

/-- A reified side effect of the lifecycle controller: a graceful-stop
request sent to a registry instance, a launch attempt for a filename,
a logged watcher error, or the start of the directory-watch task. -/
inductive Action where
  | stop (pluginNo : String)
  | launch (name : String)
  | logWatchErr (msg : String)
  | startWatch
deriving DecidableEq, Repr

/-- Outcome of a single instance's `p.Stop(ctx)` RPC: acknowledgment,
deadline expiry, or a broken connection. -/
inductive StopResult where
  | ok
  | timeout
  | connBroken
deriving DecidableEq, Repr

/-- A Go `context.WithTimeout` value, reduced to what matters here: the
instant it was created and its timeout in seconds.  Two stop calls
share a deadline exactly when they receive equal `StopCtx` values. -/
structure StopCtx where
  createdAt : Nat
  timeoutSeconds : Nat
deriving DecidableEq, Repr

/-- A recorded `p.Stop(ctx)` request: which instance was asked to stop
and under which context. -/
structure StopCall where
  pluginNo : String
  ctx : StopCtx
deriving DecidableEq, Repr

/-- `stopPluginApp` from `server.go`: looks up all registry instances
with the given source filename, creates ONE `context.WithTimeout` of 3
seconds, sends `p.Stop(timeoutCtx)` to each matching instance with that
same context, and discards each call's result (`_ = p.Stop(...)`).  It
always returns nil.  `now` is the invocation instant; `stopOutcome`
gives each instance's stop result, which the code throws away. -/
def stopPluginApp (pm : PluginManager) (name : String) (now : Nat)
    (stopOutcome : String → StopResult) : Except String Unit × List StopCall :=
  let plugins := pm.getByName name
  let timeoutCtx : StopCtx := { createdAt := now, timeoutSeconds := 3 }
  let calls := plugins.map (fun p =>
    let _ := stopOutcome p.no
    ({ pluginNo := p.no, ctx := timeoutCtx } : StopCall))
  (Except.ok (), calls)

/-- The command value built by `startPluginApp`: executable path,
working directory, and whether stdout/stderr are wired to the
supervisor's own streams. -/
structure CmdSpec where
  path : String
  dir : String
  stdoutInherit : Bool
  stderrInherit : Bool
deriving DecidableEq, Repr

/-- `startPluginApp` from `server.go`: builds
`exec.Command("./" + name)` with `cmd.Dir` set to the plugin directory
and `cmd.Stdout`/`cmd.Stderr` set to the supervisor's own streams,
clears the `exec.ErrDot` guard so the relative path may run, and calls
`cmd.Start()`, returning its error (if any) without waiting for the
child.  `startErr` is the outcome the OS reports for the spawn attempt
(`none` = the process began running); `exitBehavior` stands for
everything the child process does after the spawn — `cmd.Start`
returns without consulting it (there is no `Wait`). -/
def startPluginApp (dir name : String) (startErr : Option String)
    (exitBehavior : Nat) : Except String Unit × CmdSpec :=
  let cmd : CmdSpec :=
    { path := "./" ++ name
      dir := dir
      stdoutInherit := true
      stderrInherit := true }
  let _ := exitBehavior
  match startErr with
  | some e => (Except.error e, cmd)
  | none => (Except.ok (), cmd)

/-- `restartPlugin` from `server.go`: runs `stopPluginApp(name)`,
returning early on error (which, as proved below, never happens), then
runs `startPluginApp(name)` and returns its result.  The emitted trace
records the stop requests followed by the launch attempt. -/
def restartPlugin (dir : String) (pm : PluginManager) (name : String)
    (now : Nat) (stopOutcome : String → StopResult)
    (startErr : Option String) : Except String Unit × List Action :=
  match stopPluginApp pm name now stopOutcome with
  | (Except.error e, calls) =>
      (Except.error e, calls.map (fun c => Action.stop c.pluginNo))
  | (Except.ok _, calls) =>
      let stopActs := calls.map (fun c => Action.stop c.pluginNo)
      match (startPluginApp dir name startErr 0).fst with
      | Except.error e => (Except.error e, stopActs ++ [Action.launch name])
      | Except.ok _ => (Except.ok (), stopActs ++ [Action.launch name])

/-- Go's `path.Base`: for an empty path returns `"."`; otherwise strips
trailing slashes, and returns the part after the last remaining slash
(or `"/"` when the path consisted entirely of slashes). -/
def pathBase (p : String) : String :=
  if p = "" then "."
  else
    let trimmed := p.toList.reverse.dropWhile (fun c => c == '/')
    if trimmed = [] then "/"
    else String.mk ((trimmed.takeWhile (fun c => !(c == '/'))).reverse)

/-- The fsnotify operation flags used by `watchPlugins`. -/
inductive FsOp where
  | create
  | write
  | remove
  | rename
  | chmod
deriving DecidableEq, Repr

/-- An fsnotify event: the full path of the affected entry and the set
of operation flags; `event.Has(op)` is flag membership. -/
structure FsEvent where
  name : String
  ops : List FsOp
deriving DecidableEq, Repr

/-- `event.Has(op)` from fsnotify: whether the flag is set. -/
def FsEvent.has (ev : FsEvent) (op : FsOp) : Bool :=
  ev.ops.contains op

/-- Outcome of the `os.Stat(event.Name)` probe inside the watch loop:
an error other than not-exist, not-exist (`fileInfo` stays nil), a
regular file, or a directory. -/
inductive StatResult where
  | statErr
  | notExist
  | isFile
  | isDir
deriving DecidableEq, Repr

/-- The per-event body of `watchPlugins` from `server.go`: a stat error
other than not-exist is logged and the event is skipped; directories
are skipped; otherwise the plugin name is `path.Base(event.Name)` and
the event kind is classified in order Create, Write, Remove/Rename —
Create launches, Write restarts (stop matching instances, then
launch), Remove/Rename stops matching instances only.  Errors from
launch/restart/stop are logged and do not affect the loop. -/
def handleEvent (dir : String) (pm : PluginManager) (now : Nat)
    (stopOutcome : String → StopResult) (startErr : Option String)
    (ev : FsEvent) (stat : StatResult) : List Action :=
  match stat with
  | StatResult.statErr => []
  | StatResult.isDir => []
  | _ =>
    let pluginName := pathBase ev.name
    if ev.has FsOp.create then
      [Action.launch pluginName]
    else if ev.has FsOp.write then
      (restartPlugin dir pm pluginName now stopOutcome startErr).snd
    else if ev.has FsOp.remove || ev.has FsOp.rename then
      ((stopPluginApp pm pluginName now stopOutcome).snd).map
        (fun c => Action.stop c.pluginNo)
    else []

/-- One delivery observed by the `select` of the watch loop: an event
(paired with what `os.Stat` reports for its path), closure of the
events channel, an error from the errors channel, or closure of the
errors channel. -/
inductive WatchItem where
  | fsEvent (ev : FsEvent) (stat : StatResult)
  | eventsClosed
  | watchErr (msg : String)
  | errorsClosed
deriving DecidableEq, Repr

/-- How a run of the watch loop ended: the function returned (with the
given error value), or the loop is still running after consuming the
supplied deliveries. -/
inductive LoopOutcome where
  | finished (err : Option String)
  | running
deriving DecidableEq, Repr

/-- The `for`/`select` loop of `watchPlugins` from `server.go`, run
over a finite serialization of channel deliveries.  `event, ok` with
`!ok` returns nil; `err, ok` with `!ok` also returns nil; a delivered
watcher error is logged ("watcher error") and the loop continues; a
delivered event is handled by the per-event body.  (Watcher creation,
whose failure makes `watchPlugins` return before this loop starts, is
not part of the loop.) -/
def watchPluginsLoop (handler : FsEvent → StatResult → List Action) :
    List WatchItem → LoopOutcome × List Action
  | [] => (LoopOutcome.running, [])
  | WatchItem.eventsClosed :: _ => (LoopOutcome.finished none, [])
  | WatchItem.errorsClosed :: _ => (LoopOutcome.finished none, [])
  | WatchItem.watchErr msg :: rest =>
      let r := watchPluginsLoop handler rest
      (r.fst, Action.logWatchErr msg :: r.snd)
  | WatchItem.fsEvent ev stat :: rest =>
      let r := watchPluginsLoop handler rest
      (r.fst, handler ev stat ++ r.snd)

/-- A directory entry as returned by `os.ReadDir`: its name and
whether it is a subdirectory. -/
structure DirEntry where
  name : String
  isDir : Bool
deriving DecidableEq, Repr

/-- `startPlugins` from `server.go`: reads the plugin directory
(`readDirErr` is the outcome; an error returns immediately with no
launches), then for each entry skips subdirectories and launches the
file — a launch error is logged ("start plugin error") and the loop
continues with the next file — and finally spawns the goroutine
running the watch loop. -/
def startPlugins (readDirErr : Option String) (files : List DirEntry)
    (launchErr : String → Option String) :
    Except String Unit × List Action :=
  match readDirErr with
  | some e => (Except.error e, [])
  | none =>
      let launches := files.foldl (fun acc f =>
        if f.isDir then acc
        else
          let _ := launchErr f.name
          acc ++ [Action.launch f.name]) []
      (Except.ok (), launches ++ [Action.startWatch])

/-- Which environment operations fail while `NewServer` runs: failure
of `os.UserHomeDir`, failure of `os.Remove` on the stale socket with
an error other than not-exist, failure of `os.MkdirAll` for the socket
directory, whether the plugin directory is missing and whether creating
it fails, likewise for the sandbox directory, and failure of
`os.Chmod` on the plugin directory. -/
structure SetupEnv where
  homeDirErr : Bool
  staleSocketRemoveErr : Bool
  socketDirCreateErr : Bool
  pluginDirMissing : Bool
  pluginDirCreateErr : Bool
  sandboxDirMissing : Bool
  sandboxDirCreateErr : Bool
  chmodErr : Bool
deriving DecidableEq, Repr

/-- How `getUnixSocket` ends: it panics (on a stale-socket removal
error other than not-exist), returns an error, or returns the socket
address. -/
inductive SocketResult where
  | panicked
  | failed
  | ok
deriving DecidableEq, Repr

/-- `getUnixSocket` from `server.go`: a `UserHomeDir` failure returns
the error; a failure to remove the stale socket file with an error
other than not-exist is logged and then panics; a failure to create
the socket directory returns the error; otherwise the unix address is
returned. -/
def getUnixSocket (env : SetupEnv) : SocketResult :=
  if env.homeDirErr then SocketResult.failed
  else if env.staleSocketRemoveErr then SocketResult.panicked
  else if env.socketDirCreateErr then SocketResult.failed
  else SocketResult.ok

/-- How `NewServer` ends: it panics, returns a nil server, or returns
a built server. -/
inductive SetupOutcome where
  | panicked
  | returnedNil
  | serverBuilt
deriving DecidableEq, Repr

/-- `NewServer` from `server.go`: panics when `getUnixSocket` returns
an error (and `getUnixSocket` itself may panic); panics when the
plugin directory is missing and `os.MkdirAll` for it fails; panics
when the sandbox directory is missing and `os.MkdirAll` for it fails;
and on `os.Chmod(opts.Dir, 0555)` failure executes `return nil` — no
panic and no log — instead of aborting; otherwise the server value is
built and returned. -/
def NewServer (env : SetupEnv) : SetupOutcome :=
  match getUnixSocket env with
  | SocketResult.panicked => SetupOutcome.panicked
  | SocketResult.failed => SetupOutcome.panicked
  | SocketResult.ok =>
      if env.pluginDirMissing && env.pluginDirCreateErr then
        SetupOutcome.panicked
      else if env.sandboxDirMissing && env.sandboxDirCreateErr then
        SetupOutcome.panicked
      else if env.chmodErr then
        SetupOutcome.returnedNil
      else
        SetupOutcome.serverBuilt

/-- Whether a path is absolute (begins with a slash); used to state
how the OS resolves the `CmdSpec.path` built by `startPluginApp`:
a relative path is evaluated relative to `CmdSpec.dir`. -/
def isAbsPath (p : String) : Bool :=
  match p.toList with
  | [] => false
  | c :: _ => c == '/'

/-- Splits a character list at slash separators. -/
def splitSlash : List Char → List (List Char)
  | [] => [[]]
  | c :: rest =>
      if c = '/' then [] :: splitSlash rest
      else
        match splitSlash rest with
        | [] => [[c]]
        | comp :: comps => (c :: comp) :: comps

/-- The lexical components of a path, with empty components and
current-directory components dropped: what remains is the sequence of
directory-entry steps the OS takes when resolving the path; a
`[<dotdot>]` component among them would step out of the base
directory. -/
def pathComponents (p : String) : List (List Char) :=
  (splitSlash p.toList).filter (fun comp => decide (comp ≠ [] ∧ comp ≠ ['.']))

/-- A registry in which every instance is Normal but one instance
declares no capability at all. -/
def pmEmptyCaps : PluginManager :=
  [{ no := "p1", name := "f", status := PluginStatus.normal, methods := [] },
   { no := "p2", name := "g", status := PluginStatus.normal, methods := ["m"] }]

/-- A concrete registry used to exercise the event-handling paths:
two Normal instances launched from the files `foo` and `bar`. -/
def pmEvents : PluginManager :=
  [{ no := "e1", name := "foo", status := PluginStatus.normal, methods := ["echo"] },
   { no := "e2", name := "bar", status := PluginStatus.normal, methods := ["m"] }]

/-- A concrete directory listing with two regular files and one
subdirectory, used to exercise the startup scan. -/
def scanFiles : List DirEntry :=
  [{ name := "a", isDir := false },
   { name := "plugindata", isDir := true },
   { name := "b", isDir := false }]

/-- A concrete launch-outcome assignment in which the file `a` fails
to launch and every other file starts fine. -/
def scanLaunchErr : String → Option String :=
  fun n => if n = "a" then some "permission denied" else none

/-- The setup environment in which only `os.Chmod` on the plugin
directory fails. -/
def chmodFailEnv : SetupEnv :=
  { homeDirErr := false
    staleSocketRemoveErr := false
    socketDirCreateErr := false
    pluginDirMissing := false
    pluginDirCreateErr := false
    sandboxDirMissing := false
    sandboxDirCreateErr := false
    chmodErr := true }

end WuKongIM.Supervisor


namespace WuKongIM.Supervisor

/-- C2: the capability query returns exactly the tracked instances
whose status is Normal and whose capability set intersects the
requested methods; with an empty request it returns every Normal
instance; a non-Normal instance never appears in the result. -/
theorem plugins_capability_query (pm : PluginManager) (methods : List String)
    (p : Plugin) :
    p ∈ Plugins pm methods ↔
      (p ∈ pm.all ∧ p.status = PluginStatus.normal ∧
        (methods = [] ∨ ∃ m ∈ methods, p.hasMethod m)) := by
  unfold Plugins
  cases methods with
  | nil =>
      simp [List.mem_filter, and_assoc]
  | cons m ms =>
      simp [List.mem_filter, List.any_eq_true, and_assoc]

/-- C10: when the requested method set is non-empty, each instance of a
duplicate-free registry appears at most once in the capability query's
result, even when several requested methods are declared by it. -/
theorem plugins_no_duplicate_results (pm : PluginManager)
    (methods : List String) (hnodup : (pm.all).Nodup) (hne : methods ≠ [])
    (p : Plugin) :
    (Plugins pm methods).count p ≤ 1 := by
  have hfil : Plugins pm methods =
      (pm.all).filter (fun q =>
        q.status == PluginStatus.normal && methods.any (fun m => q.hasMethod m)) := by
    unfold Plugins
    cases methods with
    | nil => exact absurd rfl hne
    | cons m ms => rfl
  rw [hfil]
  calc ((pm.all).filter _).count p ≤ (pm.all).count p :=
        (List.filter_sublist _).count_le p
    _ ≤ 1 := List.nodup_iff_count_le_one.mp hnodup p

/-- Witness for C10 at a concrete registry: one Normal instance
declaring both requested methods still appears at most once. -/
theorem plugins_no_duplicate_results_witness :
    (Plugins
      [{ no := "p1", name := "f", status := PluginStatus.normal,
         methods := ["a", "b"] }] ["a", "b"]).count
      { no := "p1", name := "f", status := PluginStatus.normal,
        methods := ["a", "b"] } ≤ 1 :=
  plugins_no_duplicate_results
    [{ no := "p1", name := "f", status := PluginStatus.normal,
       methods := ["a", "b"] }]
    ["a", "b"] (by decide) (by decide) _

/-- Counterexample to C9 as stated: in `pmEmptyCaps` every tracked
instance is Normal, yet the query with the empty method set contains
the capability-less instance while the query with the set of all
declared methods does not, so the two results differ. -/
theorem plugins_empty_vs_allknown_counterexample :
    (∀ p ∈ (pmEmptyCaps : PluginManager).all, p.status = PluginStatus.normal) ∧
    ({ no := "p1", name := "f", status := PluginStatus.normal,
       methods := [] } : Plugin) ∈ Plugins pmEmptyCaps [] ∧
    ({ no := "p1", name := "f", status := PluginStatus.normal,
       methods := [] } : Plugin) ∉ Plugins pmEmptyCaps (allKnownMethods pmEmptyCaps) := by
  decide

/-- C9 (amended): when every tracked instance is Normal and every
instance declares at least one capability, the query with the empty
method set equals the query with the set of all declared methods. -/
theorem plugins_empty_eq_allknown (pm : PluginManager)
    (hnormal : ∀ p ∈ pm.all, p.status = PluginStatus.normal)
    (hcaps : ∀ p ∈ pm.all, p.methods ≠ []) :
    Plugins pm [] = Plugins pm (allKnownMethods pm) := by
  by_cases hak : allKnownMethods pm = []
  · rw [hak]
  · have h0 : Plugins pm [] =
        (pm.all).filter (fun p => p.status == PluginStatus.normal) := rfl
    have hlen : ((allKnownMethods pm).length == 0) = false := by
      cases h : allKnownMethods pm with
      | nil => exact absurd h hak
      | cons a l => rfl
    have h1 : Plugins pm (allKnownMethods pm) =
        (pm.all).filter (fun p =>
          p.status == PluginStatus.normal &&
            (allKnownMethods pm).any (fun m => p.hasMethod m)) := by
      unfold Plugins
      rw [hlen]
      rfl
    rw [h0, h1]
    apply List.filter_congr
    intro p hp
    have hs : p.status = PluginStatus.normal := hnormal p hp
    have hm : p.methods ≠ [] := hcaps p hp
    obtain ⟨m, hmem⟩ := List.exists_mem_of_ne_nil p.methods hm
    have hany : (allKnownMethods pm).any (fun m => p.hasMethod m) = true := by
      refine List.any_eq_true.mpr ⟨m, ?_, ?_⟩
      · unfold allKnownMethods
        rw [List.mem_dedup, List.mem_flatten]
        exact ⟨p.methods, List.mem_map_of_mem (fun q => q.methods) hp, hmem⟩
      · unfold Plugin.hasMethod
        exact List.elem_eq_true_of_mem hmem
    rw [hs, hany]
    simp

/-- Witness for C9 (amended) at a concrete registry of two Normal
instances, each declaring a capability. -/
theorem plugins_empty_eq_allknown_witness :
    Plugins
      [{ no := "p1", name := "f", status := PluginStatus.normal, methods := ["m"] },
       { no := "p2", name := "g", status := PluginStatus.normal, methods := ["k"] }] [] =
    Plugins
      [{ no := "p1", name := "f", status := PluginStatus.normal, methods := ["m"] },
       { no := "p2", name := "g", status := PluginStatus.normal, methods := ["k"] }]
      (allKnownMethods
        [{ no := "p1", name := "f", status := PluginStatus.normal, methods := ["m"] },
         { no := "p2", name := "g", status := PluginStatus.normal, methods := ["k"] }]) :=
  plugins_empty_eq_allknown _ (by decide) (by decide)

/-- C4: one invocation of stop-by-filename sends every matching
instance a stop request carrying the same single context — created at
the invocation instant with a 3-second timeout, not a fresh deadline
per instance — and always reports success to its caller, whatever the
per-instance stop outcomes are. -/
theorem stop_shared_deadline_never_fails (pm : PluginManager)
    (name : String) (now : Nat) (stopOutcome : String → StopResult) :
    (stopPluginApp pm name now stopOutcome).fst = Except.ok () ∧
    (stopPluginApp pm name now stopOutcome).snd =
      (pm.getByName name).map (fun p =>
        { pluginNo := p.no, ctx := { createdAt := now, timeoutSeconds := 3 } }) :=
  ⟨rfl, rfl⟩

end WuKongIM.Supervisor

namespace WuKongIM.Supervisor

/-- C1: for every write event on a non-directory path, the restart
path first issues a stop request for every registry instance whose
source filename matches the event's base name, and then issues the
launch for that name unconditionally — also when no instance matched,
and whatever each matched instance's stop outcome (acknowledgment,
timeout, broken connection) and the launch outcome are. -/
theorem write_event_stops_then_launches (dir : String) (pm : PluginManager)
    (now : Nat) (stopOutcome : String → StopResult) (startErr : Option String)
    (ev : FsEvent) (stat : StatResult)
    (hw : ev.has FsOp.write = true) (hc : ev.has FsOp.create = false)
    (hstat : stat = StatResult.isFile ∨ stat = StatResult.notExist) :
    handleEvent dir pm now stopOutcome startErr ev stat =
      ((pm.getByName (pathBase ev.name)).map (fun p => Action.stop p.no))
        ++ [Action.launch (pathBase ev.name)] := by
  rcases hstat with h | h <;> subst h <;> cases startErr <;>
    simp [handleEvent, hw, hc, restartPlugin, stopPluginApp, startPluginApp,
      List.map_map, Function.comp]

/-- Witness for C1: in `pmEvents`, a write event for `/plugins/foo`
whose instance times out on stop still produces the stop request for
`e1` followed by the launch of `foo`. -/
theorem write_event_stops_then_launches_witness :
    handleEvent "/plugins" pmEvents 0 (fun _ => StopResult.timeout) none
      { name := "/plugins/foo", ops := [FsOp.write] } StatResult.isFile =
      [Action.stop "e1", Action.launch "foo"] := by
  rw [write_event_stops_then_launches "/plugins" pmEvents 0
      (fun _ => StopResult.timeout) none
      { name := "/plugins/foo", ops := [FsOp.write] } StatResult.isFile
      (by decide) (by decide) (Or.inl rfl)]
  decide

/-- C6: for every remove or rename event on a non-directory path, the
controller issues a stop request for every registry instance whose
source filename matches the event's base name, and issues no launch at
all in response to that event. -/
theorem remove_event_stops_without_launch (dir : String) (pm : PluginManager)
    (now : Nat) (stopOutcome : String → StopResult) (startErr : Option String)
    (ev : FsEvent) (stat : StatResult)
    (hr : ev.has FsOp.remove = true ∨ ev.has FsOp.rename = true)
    (hc : ev.has FsOp.create = false) (hw : ev.has FsOp.write = false)
    (hstat : stat = StatResult.isFile ∨ stat = StatResult.notExist) :
    handleEvent dir pm now stopOutcome startErr ev stat =
      (pm.getByName (pathBase ev.name)).map (fun p => Action.stop p.no) ∧
    ∀ n, Action.launch n ∉ handleEvent dir pm now stopOutcome startErr ev stat := by
  have htrace : handleEvent dir pm now stopOutcome startErr ev stat =
      (pm.getByName (pathBase ev.name)).map (fun p => Action.stop p.no) := by
    rcases hstat with h | h <;> subst h <;> rcases hr with h2 | h2 <;>
      simp [handleEvent, hw, hc, h2, stopPluginApp, List.map_map, Function.comp]
  refine ⟨htrace, ?_⟩
  intro n hmem
  rw [htrace] at hmem
  simp [List.mem_map] at hmem

/-- Witness for C6: in `pmEvents`, a remove event for `/plugins/foo`
produces exactly the stop request for `e1` and no launch. -/
theorem remove_event_stops_without_launch_witness :
    handleEvent "/plugins" pmEvents 0 (fun _ => StopResult.ok) none
      { name := "/plugins/foo", ops := [FsOp.remove] } StatResult.notExist =
      [Action.stop "e1"] := by
  rw [(remove_event_stops_without_launch "/plugins" pmEvents 0
      (fun _ => StopResult.ok) none
      { name := "/plugins/foo", ops := [FsOp.remove] } StatResult.notExist
      (Or.inl (by decide)) (by decide) (by decide) (Or.inr rfl)).1]
  decide

end WuKongIM.Supervisor

namespace WuKongIM.Supervisor

/-- The launch loop of the startup scan accumulates, in order, one
launch action per non-directory entry. -/
theorem startPlugins_foldl_eq (files : List DirEntry)
    (launchErr : String → Option String) (acc : List Action) :
    files.foldl (fun acc2 f =>
      if f.isDir then acc2
      else
        let _ := launchErr f.name
        acc2 ++ [Action.launch f.name]) acc =
      acc ++ (files.filter (fun f => !f.isDir)).map (fun f => Action.launch f.name) := by
  induction files generalizing acc with
  | nil => simp
  | cons f fs ih =>
      by_cases h : f.isDir <;> simp [h, ih]

/-- C3: with the directory listing succeeding, the startup scan
launches, in listing order, exactly the non-directory entries — one
launch per regular file, whatever the individual launch outcomes are —
and only then starts the watch task; with distinct entry names each
regular file is launched exactly once. -/
theorem startup_scan_launches_each_file (files : List DirEntry)
    (launchErr : String → Option String)
    (hnames : (files.map (fun f => f.name)).Nodup) :
    (startPlugins none files launchErr).fst = Except.ok () ∧
    (startPlugins none files launchErr).snd =
      ((files.filter (fun f => !f.isDir)).map (fun f => Action.launch f.name))
        ++ [Action.startWatch] ∧
    ∀ f ∈ files, f.isDir = false →
      ((startPlugins none files launchErr).snd).count (Action.launch f.name) = 1 := by
  have htrace : (startPlugins none files launchErr).snd =
      ((files.filter (fun f => !f.isDir)).map (fun f => Action.launch f.name))
        ++ [Action.startWatch] := by
    have hdef : (startPlugins none files launchErr).snd =
        (files.foldl (fun acc2 f =>
          if f.isDir then acc2
          else
            let _ := launchErr f.name
            acc2 ++ [Action.launch f.name]) []) ++ [Action.startWatch] := rfl
    rw [hdef, startPlugins_foldl_eq files launchErr []]
    simp
  refine ⟨rfl, htrace, ?_⟩
  intro f hf hnd
  rw [htrace, List.count_append]
  have hwatch : ([Action.startWatch] : List Action).count (Action.launch f.name) = 0 := by
    simp [List.count_cons]
  rw [hwatch]
  have hcomp : (files.filter (fun g => !g.isDir)).map (fun g => Action.launch g.name) =
      ((files.filter (fun g => !g.isDir)).map (fun g => g.name)).map Action.launch := by
    rw [List.map_map]
    rfl
  rw [hcomp]
  have hinj : Function.Injective Action.launch := by
    intro a b h
    injection h
  rw [List.count_map_of_injective _ _ hinj]
  have hsub : List.Sublist
      ((files.filter (fun g => !g.isDir)).map (fun g => g.name))
      (files.map (fun g => g.name)) :=
    (List.filter_sublist files).map (fun g => g.name)
  have hnodup2 : ((files.filter (fun g => !g.isDir)).map (fun g => g.name)).Nodup :=
    hnames.sublist hsub
  have hmem : f.name ∈ (files.filter (fun g => !g.isDir)).map (fun g => g.name) :=
    List.mem_map_of_mem (fun g => g.name)
      (List.mem_filter.mpr ⟨hf, by simp [hnd]⟩)
  simp [List.count_eq_one_of_mem hnodup2 hmem]

/-- Witness for C3: a listing with two regular files (one of which
fails to launch) and a subdirectory launches each regular file exactly
once before starting the watch task. -/
theorem startup_scan_launches_each_file_witness :
    (startPlugins none scanFiles scanLaunchErr).fst = Except.ok () ∧
    (startPlugins none scanFiles scanLaunchErr).snd =
      ((scanFiles.filter (fun f => !f.isDir)).map (fun f => Action.launch f.name))
        ++ [Action.startWatch] ∧
    ∀ f ∈ scanFiles, f.isDir = false →
      ((startPlugins none scanFiles scanLaunchErr).snd).count
        (Action.launch f.name) = 1 :=
  startup_scan_launches_each_file scanFiles scanLaunchErr (by decide)

/-- Counterexample to C7 as stated: the loop also returns — cleanly —
when the watcher's error channel closes, with the event channel never
having been closed, so closure of the event stream is not the only way
it terminates. -/
theorem watch_loop_ends_on_error_channel_close :
    (watchPluginsLoop (fun _ _ => []) [WatchItem.errorsClosed]).fst =
      LoopOutcome.finished none ∧
    WatchItem.eventsClosed ∉ [WatchItem.errorsClosed] := by
  exact ⟨rfl, by decide⟩

/-- C7 (amended): the watch loop never returns an error; it returns —
cleanly, with nil — exactly when the events channel or the errors
channel is closed, and a watcher error delivered while the channels
stay open leaves the loop running (it is logged and the loop keeps
consuming deliveries). -/
theorem watch_loop_termination (handler : FsEvent → StatResult → List Action)
    (items : List WatchItem) :
    ((watchPluginsLoop handler items).fst = LoopOutcome.finished none ∨
      (watchPluginsLoop handler items).fst = LoopOutcome.running) ∧
    ((watchPluginsLoop handler items).fst = LoopOutcome.finished none ↔
      (WatchItem.eventsClosed ∈ items ∨ WatchItem.errorsClosed ∈ items)) := by
  induction items with
  | nil => simp [watchPluginsLoop]
  | cons i rest ih =>
      cases i with
      | fsEvent ev stat => simpa [watchPluginsLoop] using ih
      | eventsClosed => simp [watchPluginsLoop]
      | watchErr msg => simpa [watchPluginsLoop] using ih
      | errorsClosed => simp [watchPluginsLoop]

/-- Witness for C7 (amended) on a concrete delivery sequence: an error
delivery followed by the events-channel closure terminates the loop
cleanly. -/
theorem watch_loop_termination_witness :
    ((watchPluginsLoop (fun _ _ => [])
        [WatchItem.watchErr "boom", WatchItem.eventsClosed]).fst =
          LoopOutcome.finished none ∨
      (watchPluginsLoop (fun _ _ => [])
        [WatchItem.watchErr "boom", WatchItem.eventsClosed]).fst =
          LoopOutcome.running) ∧
    ((watchPluginsLoop (fun _ _ => [])
        [WatchItem.watchErr "boom", WatchItem.eventsClosed]).fst =
          LoopOutcome.finished none ↔
      (WatchItem.eventsClosed ∈
          [WatchItem.watchErr "boom", WatchItem.eventsClosed] ∨
        WatchItem.errorsClosed ∈
          [WatchItem.watchErr "boom", WatchItem.eventsClosed])) :=
  watch_loop_termination (fun _ _ => [])
    [WatchItem.watchErr "boom", WatchItem.eventsClosed]

end WuKongIM.Supervisor

namespace WuKongIM.Supervisor

/-- C5 fails on the code: when only the `os.Chmod` of the plugin
directory fails during construction, `NewServer` executes `return nil`
— no panic and no log — so that setup failure does not abort the
supervisor startup the way every other setup failure does; by
contrast, each directory/socket creation or home-directory failure
makes construction panic. -/
theorem chmod_failure_returns_nil :
    NewServer chmodFailEnv = SetupOutcome.returnedNil ∧
    NewServer chmodFailEnv ≠ SetupOutcome.panicked ∧
    NewServer { chmodFailEnv with
      socketDirCreateErr := true, chmodErr := false } = SetupOutcome.panicked ∧
    NewServer { chmodFailEnv with
      homeDirErr := true, chmodErr := false } = SetupOutcome.panicked ∧
    NewServer { chmodFailEnv with
      staleSocketRemoveErr := true, chmodErr := false } = SetupOutcome.panicked ∧
    NewServer { chmodFailEnv with
      pluginDirMissing := true, pluginDirCreateErr := true,
      chmodErr := false } = SetupOutcome.panicked ∧
    NewServer { chmodFailEnv with
      sandboxDirMissing := true, sandboxDirCreateErr := true,
      chmodErr := false } = SetupOutcome.panicked := by
  decide

/-- A slash-free character list splits into a single component. -/
theorem splitSlash_no_slash (l : List Char) (h : ('/' : Char) ∉ l) :
    splitSlash l = [l] := by
  induction l with
  | nil => rfl
  | cons c cs ih =>
      have hc : ¬ c = '/' := fun hcc => h (hcc ▸ List.mem_cons_self c cs)
      have hcs : ('/' : Char) ∉ cs := fun hm => h (List.mem_cons_of_mem c hm)
      simp [splitSlash, hc, ih hcs]

/-- The character list of the path `startPluginApp` builds. -/
theorem toList_dotSlash (name : String) :
    ("./" ++ name).toList = '.' :: '/' :: name.toList := by
  exact String.data_append "./" name

/-- The command path built for a slash-free, non-trivial entry name
resolves through exactly one directory-entry step: the name itself. -/
theorem pathComponents_dotSlash (name : String)
    (hslash : ('/' : Char) ∉ name.toList)
    (hne : name.toList ≠ []) (hdot : name.toList ≠ ['.']) :
    pathComponents ("./" ++ name) = [name.toList] := by
  have hne2 : name.data ≠ [] := hne
  have hdot2 : name.data ≠ ['.'] := hdot
  unfold pathComponents
  rw [toList_dotSlash]
  have hsplit : splitSlash ('.' :: '/' :: name.toList) =
      [['.'], name.toList] := by
    simp [splitSlash, splitSlash_no_slash name.data hslash]
  rw [hsplit]
  simp [hne2, hdot2]

/-- C8: launch resolves the executable by the relative path
`./<name>` — for a slash-free, non-trivial entry name this path is not
absolute and its resolution takes the single step `<name>` inside the
command's working directory, with no parent-directory step — sets the
child's working directory to the plugin directory, wires the child's
standard output and error to the supervisor's own streams, and its
result is the spawn outcome alone, independent of anything the child
does after starting. -/
theorem launch_resolves_inside_plugin_dir (dir name : String)
    (startErr : Option String) (exitBehavior : Nat)
    (hslash : ('/' : Char) ∉ name.toList)
    (hne : name.toList ≠ []) (hdot : name.toList ≠ ['.'])
    (hdd : name.toList ≠ ['.', '.']) :
    isAbsPath (startPluginApp dir name startErr exitBehavior).snd.path = false ∧
    pathComponents (startPluginApp dir name startErr exitBehavior).snd.path =
      [name.toList] ∧
    (['.', '.'] : List Char) ∉
      pathComponents (startPluginApp dir name startErr exitBehavior).snd.path ∧
    (startPluginApp dir name startErr exitBehavior).snd.dir = dir ∧
    (startPluginApp dir name startErr exitBehavior).snd.stdoutInherit = true ∧
    (startPluginApp dir name startErr exitBehavior).snd.stderrInherit = true ∧
    (∀ e1 e2 : Nat,
      startPluginApp dir name startErr e1 = startPluginApp dir name startErr e2) ∧
    (startPluginApp dir name startErr exitBehavior).fst =
      (match startErr with
       | some e => Except.error e
       | none => Except.ok ()) := by
  have hcmd : (startPluginApp dir name startErr exitBehavior).snd =
      { path := "./" ++ name, dir := dir,
        stdoutInherit := true, stderrInherit := true } := by
    cases startErr <;> rfl
  refine ⟨?_, ?_, ?_, ?_, ?_, ?_, ?_, ?_⟩
  · rw [hcmd]
    show isAbsPath ("./" ++ name) = false
    unfold isAbsPath
    rw [toList_dotSlash]
    rfl
  · rw [hcmd]
    exact pathComponents_dotSlash name hslash hne hdot
  · rw [hcmd]
    show (['.', '.'] : List Char) ∉ pathComponents ("./" ++ name)
    rw [pathComponents_dotSlash name hslash hne hdot]
    intro hmem
    rcases List.mem_singleton.mp hmem with h
    exact hdd h.symm
  · rw [hcmd]
  · rw [hcmd]
  · rw [hcmd]
  · intro e1 e2
    cases startErr <;> rfl
  · cases startErr <;> rfl

/-- Witness for C8 at the entry name `echo-plugin` and plugin
directory `/plugins`, with the spawn succeeding. -/
theorem launch_resolves_inside_plugin_dir_witness :
    isAbsPath (startPluginApp "/plugins" "echo-plugin" none 0).snd.path = false ∧
    pathComponents (startPluginApp "/plugins" "echo-plugin" none 0).snd.path =
      ["echo-plugin".toList] ∧
    (['.', '.'] : List Char) ∉
      pathComponents (startPluginApp "/plugins" "echo-plugin" none 0).snd.path ∧
    (startPluginApp "/plugins" "echo-plugin" none 0).snd.dir = "/plugins" ∧
    (startPluginApp "/plugins" "echo-plugin" none 0).snd.stdoutInherit = true ∧
    (startPluginApp "/plugins" "echo-plugin" none 0).snd.stderrInherit = true ∧
    (∀ e1 e2 : Nat,
      startPluginApp "/plugins" "echo-plugin" none e1 =
        startPluginApp "/plugins" "echo-plugin" none e2) ∧
    (startPluginApp "/plugins" "echo-plugin" none 0).fst = Except.ok () :=
  launch_resolves_inside_plugin_dir "/plugins" "echo-plugin" none 0
    (by decide) (by decide) (by decide) (by decide)

end WuKongIM.Supervisor
